import Mathlib

/-! # Dns2DoH: the query-relay path

A shallow embedding of the UDP-DNS to DNS-over-HTTPS gateway:

* `tls_config.go`  : `GetTLSConfig`, `verifyPeerCertificate`,
  `verifyCertificateIssuer`, `ValidateTLSConfig`;
* `doh_client.go`  : `queryServer`, `QueryWithServer`, `Query`;
* `dns_handler.go` : `handleDNSRequest`.

Conventions.

* Go strings are Lean strings; Go `error` values are represented by their
  message (`Except String α`, `.ok` standing for a `nil` error).
* The network is an abstract world `σ` threaded through every HTTPS
  exchange (`Env.Do`), so that two exchanges with the same URL may differ.
* Library code (`miekg/dns`, `net/http`, `net`) that the program calls but
  does not define is a field of `Env`, except `SetReply` and `SetRcode`,
  which are transcribed from the library.
* Lines written through the standard `log` package are diagnostics and are
  not part of the observed behaviour; the observed effects are the messages
  handed to the response writer, the entries handed to the query logger, the
  calls made to the forwarder and the upstream servers attempted.
-/

namespace Dns2DoH

/-! ## Strings -/

/-- Go `strings.HasPrefix` on character lists: `p` starts `s`. -/
def startsWith : List Char → List Char → Bool
  | _, [] => true
  | [], _ :: _ => false
  | a :: s, b :: p => a == b && startsWith s p

/-- Go `strings.Contains` on character lists: `p` occurs in `s` as a
contiguous block. -/
def containsChars : List Char → List Char → Bool
  | [], p => startsWith [] p
  | a :: s, p => startsWith (a :: s) p || containsChars s p

/-- Go `strings.Contains(s, substr)`. Go compares bytes; on well-formed UTF-8
a byte block is contained exactly when the character block is. -/
def Contains (s substr : String) : Bool :=
  containsChars s.toList substr.toList

/-- Go `strings.Join(elems, sep)`. -/
def Join (elems : List String) (sep : String) : String :=
  sep.intercalate elems

/-! ## Configuration (`main.go`, type `Config`) -/

/-- One entry of `Config.DoH.Servers`. -/
structure Server where
  URL : String
  Name : String
  deriving DecidableEq, Repr

/-- The `Config.DoH` section. -/
structure DoHSection where
  Servers : List Server
  Timeout : Int
  UseHTTP2 : Bool
  deriving DecidableEq, Repr

/-- The `Config.TLS` section. -/
structure TLSSection where
  Enabled : Bool
  PrintCertInfo : Bool
  PinCertIssuer : Bool
  AllowedIssuers : List String
  InsecureSkipVerify : Bool
  deriving DecidableEq, Repr

/-- The part of `Config.Logging` read on the relay path. -/
structure LoggingSection where
  Level : String
  QueryLogEnabled : Bool
  deriving DecidableEq, Repr

/-- The configuration, restricted to the sections read on the relay path. -/
structure Config where
  Listen : String
  DoH : DoHSection
  TLS : TLSSection
  Logging : LoggingSection
  deriving DecidableEq, Repr

/-! ## Certificates and the TLS client policy (`tls_config.go`) -/

/-- The fields of `x509.Certificate` read by the trust verifier. -/
structure Certificate where
  SubjectCommonName : String
  IssuerCommonName : String
  DNSNames : List String
  deriving DecidableEq, Repr

/-- Type of the `VerifyPeerCertificate` hook of `tls.Config`. -/
abbrev VerifyHook := List (List Nat) → List (List Certificate) → Except String Unit

/-- The fields of `tls.Config` that `GetTLSConfig` sets. -/
structure TlsConfig where
  MinVersion : Nat
  InsecureSkipVerify : Bool
  VerifyPeerCertificate : Option VerifyHook

/-- The constant `tls.VersionTLS12`. -/
def VersionTLS12 : Nat := 0x0303

/-- The inner loop of `verifyCertificateIssuer`: some allowed issuer contains
the issuer common name or is contained in it. -/
def issuerAllowed (issuerCN : String) : List String → Bool
  | [] => false
  | allowedIssuer :: rest =>
    if Contains issuerCN allowedIssuer || Contains allowedIssuer issuerCN then true
    else issuerAllowed issuerCN rest

/-- The outer loop of `verifyCertificateIssuer`: the first certificate of the
chain with an allowed issuer ends the search. -/
def chainAllowed (allowed : List String) : List Certificate → Bool
  | [] => false
  | cert :: rest =>
    if issuerAllowed cert.IssuerCommonName allowed then true
    else chainAllowed allowed rest

/-- `TLSConfigManager.verifyCertificateIssuer`. -/
def verifyCertificateIssuer (config : Config) (chain : List Certificate) :
    Except String Unit :=
  if config.TLS.AllowedIssuers.length == 0 then
    .ok ()
  else if chainAllowed config.TLS.AllowedIssuers chain then
    .ok ()
  else
    .error ("certificate issuer not in allowed list. Allowed: ["
      ++ Join config.TLS.AllowedIssuers ", " ++ "]")

/-- `TLSConfigManager.verifyPeerCertificate`. -/
def verifyPeerCertificate (config : Config) (_rawCerts : List (List Nat))
    (verifiedChains : List (List Certificate)) : Except String Unit :=
  match verifiedChains with
  | [] => .error "no verified certificate chains"
  | [] :: _ => .error "no verified certificate chains"
  | (cert :: more) :: _ =>
    if config.TLS.PinCertIssuer then
      match verifyCertificateIssuer config (cert :: more) with
      | .error err => .error err
      | .ok () => .ok ()
    else
      .ok ()

/-- `TLSConfigManager.GetTLSConfig`. -/
def GetTLSConfig (config : Config) : TlsConfig :=
  let tlsConfig : TlsConfig :=
    { MinVersion := VersionTLS12, InsecureSkipVerify := false, VerifyPeerCertificate := none }
  if !config.TLS.Enabled then
    tlsConfig
  else if config.TLS.InsecureSkipVerify then
    { tlsConfig with InsecureSkipVerify := true }
  else if config.TLS.PinCertIssuer || config.TLS.PrintCertInfo then
    { tlsConfig with VerifyPeerCertificate := some (verifyPeerCertificate config) }
  else
    tlsConfig

/-- `TLSConfigManager.ValidateTLSConfig`. -/
def ValidateTLSConfig (config : Config) : Except String Unit :=
  if !config.TLS.Enabled then
    .ok ()
  else if config.TLS.PinCertIssuer then
    if config.TLS.AllowedIssuers.length == 0 then
      .error "certificate issuer pinning is enabled but no allowed issuers specified"
    else
      .ok ()
  else
    .ok ()

/-! ## DNS messages (`miekg/dns`) -/

/-- The struct `dns.Question`. -/
structure Question where
  Name : String
  Qtype : Nat
  Qclass : Nat
  deriving DecidableEq, Repr

/-- The struct `dns.RR_Header`. -/
structure RR_Header where
  Name : String
  Rrtype : Nat
  Class : Nat
  Ttl : Nat
  Rdlength : Nat
  deriving DecidableEq, Repr

/-- The dynamic type of a resource record, with the fields of the record
types that `handleDNSRequest` distinguishes; every other record type is
`other`, carrying its raw data. -/
inductive RData where
  | A (A : List Nat)
  | AAAA (AAAA : List Nat)
  | CNAME (Target : String)
  | MX (Preference : Nat) (Mx : String)
  | TXT (Txt : List String)
  | NS (Ns : String)
  | PTR (Ptr : String)
  | SOA (Ns Mbox : String) (Serial Refresh Retry Expire Minttl : Nat)
  | other (rdata : List Nat)
  deriving DecidableEq, Repr

/-- A value of the interface `dns.RR`: a header and the typed record data. -/
structure RR where
  Hdr : RR_Header
  data : RData
  deriving DecidableEq, Repr

/-- The struct `dns.Msg` (the embedded `dns.MsgHdr` flattened). -/
structure Msg where
  Id : Nat
  Response : Bool
  Opcode : Int
  Authoritative : Bool
  Truncated : Bool
  RecursionDesired : Bool
  RecursionAvailable : Bool
  Zero : Bool
  AuthenticatedData : Bool
  CheckingDisabled : Bool
  Rcode : Int
  Compress : Bool
  Question : List Question
  Answer : List RR
  Ns : List RR
  Extra : List RR
  deriving DecidableEq, Repr

/-- The value of `new(dns.Msg)`: every field zero. -/
def newMsg : Msg :=
  { Id := 0, Response := false, Opcode := 0, Authoritative := false, Truncated := false,
    RecursionDesired := false, RecursionAvailable := false, Zero := false,
    AuthenticatedData := false, CheckingDisabled := false, Rcode := 0, Compress := false,
    Question := [], Answer := [], Ns := [], Extra := [] }

/-- The constant `dns.OpcodeQuery`. -/
def OpcodeQuery : Int := 0
/-- The constant `dns.RcodeSuccess`. -/
def RcodeSuccess : Int := 0
/-- The constant `dns.RcodeFormatError`. -/
def RcodeFormatError : Int := 1
/-- The constant `dns.RcodeServerFailure`. -/
def RcodeServerFailure : Int := 2

/-- The library method `(*dns.Msg).SetReply`: the receiver becomes a reply to
`request`, taking its identifier, its opcode, for a standard query its
recursion-desired and checking-disabled bits, and its first question. -/
def SetReply (m request : Msg) : Msg :=
  let m := { m with Id := request.Id, Response := true, Opcode := request.Opcode }
  let m := if m.Opcode == OpcodeQuery then
      { m with RecursionDesired := request.RecursionDesired,
               CheckingDisabled := request.CheckingDisabled }
    else m
  let m := { m with Rcode := RcodeSuccess }
  match request.Question with
  | [] => m
  | q :: _ => { m with Question := [q] }

/-- The library method `(*dns.Msg).SetRcode`: `SetReply`, then the response
code. -/
def SetRcode (m request : Msg) (rcode : Int) : Msg :=
  { SetReply m request with Rcode := rcode }

/-! ## The environment -/

/-- What `http.Client.Do` hands back on success, as far as `queryServer`
reads it: the status code, the value of `Header.Get("Content-Type")`, and
the outcome of `io.ReadAll` on the body. -/
structure HttpResponse where
  StatusCode : Nat
  ContentType : String
  Body : Except String (List Nat)

/-- The library and the outside world, over a network state `σ`. -/
structure Env (σ : Type) where
  /-- The method `(*dns.Msg).Pack`. -/
  Pack : Msg → Except String (List Nat)
  /-- The method `(*dns.Msg).Unpack` on a fresh message. -/
  Unpack : List Nat → Except String Msg
  /-- The function `http.NewRequestWithContext` for a `POST` to the URL. -/
  NewRequest : String → Except String Unit
  /-- The method `http.Client.Do`: one HTTPS exchange with the URL. -/
  Do : σ → String → List Nat → Except String HttpResponse × σ
  /-- The wall clock, in milliseconds. -/
  now : σ → Int
  /-- The table `dns.TypeToString` (missing keys give the empty string). -/
  TypeToString : Nat → String
  /-- The table `dns.RcodeToString` (missing keys give the empty string). -/
  RcodeToString : Int → String
  /-- The method `net.IP.String`. -/
  ipString : List Nat → String
  /-- The method `RR.String`. -/
  rrString : RR → String

/-- The constant `http.StatusOK`. -/
def StatusOK : Nat := 200

/-! ## The DoH forwarder (`doh_client.go`) -/

/-- `DoHClient.queryServer`: one POST of the packed query to one server. -/
def queryServer {σ : Type} (env : Env σ) (w : σ) (serverURL : String)
    (packed : List Nat) : Except String Msg × σ :=
  match env.NewRequest serverURL with
  | .error err => (.error ("failed to create HTTP request: " ++ err), w)
  | .ok () =>
    match env.Do w serverURL packed with
    | (.error err, w1) => (.error ("failed to send DoH request: " ++ err), w1)
    | (.ok httpResp, w1) =>
      if httpResp.StatusCode != StatusOK then
        (.error ("DoH server returned error status code: " ++ toString httpResp.StatusCode), w1)
      else if httpResp.ContentType != "application/dns-message" then
        (.error ("DoH server returned invalid content type: " ++ httpResp.ContentType), w1)
      else
        match httpResp.Body with
        | .error err => (.error ("failed to read DoH response: " ++ err), w1)
        | .ok body =>
          match env.Unpack body with
          | .error err => (.error ("failed to parse DNS response: " ++ err), w1)
          | .ok resp => (.ok resp, w1)

/-- What one call of `QueryWithServer` does: the returned triple
`(resp, server, err)` with `none` for Go's `nil`, the servers handed to
`queryServer` in order as `attempted` (whether or not the attempt reached
the network), and the network state afterwards. -/
structure QueryOutcome (σ : Type) where
  resp : Option Msg
  server : String
  err : Option String
  attempted : List Server
  world : σ

/-- The loop of `QueryWithServer` over the servers still to try, followed by
the two returns after it; `lastErr` is `none` for Go's `nil`. -/
def queryLoop {σ : Type} (env : Env σ) (packed : List Nat) :
    List Server → Option String → σ → QueryOutcome σ
  | [], lastErr, w =>
    match lastErr with
    | some e =>
      { resp := none, server := "",
        err := some ("all DoH servers failed, last error: " ++ e),
        attempted := [], world := w }
    | none =>
      { resp := none, server := "", err := some "no available DoH servers",
        attempted := [], world := w }
  | server :: rest, _lastErr, w =>
    match queryServer env w server.URL packed with
    | (.error err, w1) =>
      let r := queryLoop env packed rest (some err) w1
      { r with attempted := server :: r.attempted }
    | (.ok resp, w1) =>
      { resp := some resp, server := server.Name, err := none,
        attempted := [server], world := w1 }

/-- `DoHClient.QueryWithServer`. -/
def QueryWithServer {σ : Type} (env : Env σ) (config : Config) (w : σ) (req : Msg) :
    QueryOutcome σ :=
  match env.Pack req with
  | .error err =>
    { resp := none, server := "", err := some ("failed to pack DNS message: " ++ err),
      attempted := [], world := w }
  | .ok packed => queryLoop env packed config.DoH.Servers none w

/-- `DoHClient.Query`. -/
def Query {σ : Type} (env : Env σ) (config : Config) (w : σ) (req : Msg) :
    Option Msg × Option String × σ :=
  let r := QueryWithServer env config w req
  (r.resp, r.err, r.world)

/-! ## The query relay (`dns_handler.go`, `query_logger.go`) -/

/-- The struct `AnswerEntry` (`Type_` is the field `Type`). -/
structure AnswerEntry where
  Name : String
  Type_ : String
  TTL : Nat
  Value : String
  deriving DecidableEq, Repr

/-- The struct `QueryLogEntry`; times are in milliseconds. -/
structure QueryLogEntry where
  Timestamp : Int
  ClientIP : String
  Domain : String
  QueryType : String
  ResponseCode : String
  AnswerCount : Nat
  Answers : List AnswerEntry
  Duration : Int
  DoHServer : String
  deriving DecidableEq, Repr

/-- The type switch of `handleDNSRequest` on one answer record: the value
shown for it. -/
def answerValue {σ : Type} (env : Env σ) (ans : RR) : String :=
  match ans.data with
  | .A a => env.ipString a
  | .AAAA a => env.ipString a
  | .CNAME target => target
  | .MX preference mx => mx ++ " (priority: " ++ toString preference ++ ")"
  | .TXT txt => "[" ++ " ".intercalate txt ++ "]"
  | .NS ns => ns
  | .PTR ptr => ptr
  | .SOA ns mbox _ _ _ _ _ => "ns: " ++ ns ++ ", mbox: " ++ mbox
  | .other _ => env.rrString ans

/-- The body of the answer loop of `handleDNSRequest` for one record. -/
def answerEntry {σ : Type} (env : Env σ) (ans : RR) : AnswerEntry :=
  { Name := ans.Hdr.Name, Type_ := env.TypeToString ans.Hdr.Rrtype, TTL := ans.Hdr.Ttl,
    Value := answerValue env ans }

/-- The answer loop of `handleDNSRequest`: each record in turn is appended
to `answers`. -/
def extractAnswers {σ : Type} (env : Env σ) : List RR → List AnswerEntry → List AnswerEntry
  | [], answers => answers
  | ans :: rest, answers => extractAnswers env rest (answers ++ [answerEntry env ans])

/-- What one call of `handleDNSRequest` does: the messages handed to
`w.WriteMsg`, the entries handed to `queryLogger.Log`, the requests handed
to `dohClient.QueryWithServer`, the servers that call attempted, the network
state afterwards, and whether the handler stopped on a nil dereference. -/
structure Handled (σ : Type) where
  written : List Msg
  logged : List QueryLogEntry
  forwarded : List Msg
  attempted : List Server
  world : σ
  panicked : Bool

/-- `DNSServer.handleDNSRequest`; `clientAddr` is `w.RemoteAddr().String()`. -/
def handleDNSRequest {σ : Type} (env : Env σ) (config : Config) (clientAddr : String)
    (w : σ) (req : Msg) : Handled σ :=
  let startTime := env.now w
  let domain := match req.Question with
    | [] => ""
    | q :: _ => q.Name
  let queryType := match req.Question with
    | [] => ""
    | q :: _ => env.TypeToString q.Qtype
  let resp := { SetReply newMsg req with Compress := false }
  if req.Question.length == 0 then
    { written := [SetRcode resp req RcodeFormatError], logged := [], forwarded := [],
      attempted := [], world := w, panicked := false }
  else
    let r := QueryWithServer env config w req
    let queryDuration := env.now r.world - startTime
    match r.err with
    | some _ =>
      { written := [SetRcode resp req RcodeServerFailure],
        logged := [{ Timestamp := startTime, ClientIP := clientAddr, Domain := domain,
                     QueryType := queryType, ResponseCode := "SERVFAIL", AnswerCount := 0,
                     Answers := [], Duration := queryDuration, DoHServer := r.server }],
        forwarded := [req], attempted := r.attempted, world := r.world, panicked := false }
    | none =>
      match r.resp with
      | none =>
        { written := [], logged := [], forwarded := [req], attempted := r.attempted,
          world := r.world, panicked := true }
      | some dohResp =>
        let answers := extractAnswers env dohResp.Answer []
        { written := [dohResp],
          logged := [{ Timestamp := startTime, ClientIP := clientAddr, Domain := domain,
                       QueryType := queryType,
                       ResponseCode := env.RcodeToString dohResp.Rcode,
                       AnswerCount := dohResp.Answer.length, Answers := answers,
                       Duration := queryDuration, DoHServer := r.server }],
          forwarded := [req], attempted := r.attempted, world := r.world, panicked := false }

/-! ## Attempt sequences and sample inputs -/

/-- The servers of the list are attempted in order from network state `w`
and every attempt fails: `some w1` gives the network state reached after the
last of them, `none` says that some attempt succeeded. -/
def failAll {σ : Type} (env : Env σ) (packed : List Nat) : List Server → σ → Option σ
  | [], w => some w
  | server :: rest, w =>
    match queryServer env w server.URL packed with
    | (.error _, w1) => failAll env packed rest w1
    | (.ok _, _) => none

/-- A sample environment over a network that counts its exchanges: a message
packs to `pack` of it, the body `[id]` unpacks to a reply with identifier
`id` and the answers `answers`, and the server at `url` sends `reply url`. -/
def sampleEnv (pack : Msg → Except String (List Nat)) (answers : List RR)
    (reply : String → List Nat → Except String HttpResponse) : Env Nat :=
  { Pack := pack
    Unpack := fun body =>
      match body with
      | [id] => .ok { newMsg with Id := id, Response := true, Answer := answers }
      | _ => .error "malformed message"
    NewRequest := fun _ => .ok ()
    Do := fun w url body => (reply url body, w + 1)
    now := fun w => 5 * w
    TypeToString := fun t => if t == 1 then "A" else ""
    RcodeToString := fun r => if r == 0 then "NOERROR" else ""
    ipString := fun _ => "192.0.2.1"
    rrString := fun _ => "" }

/-- A sample configuration with the given servers and TLS section. -/
def sampleConfig (servers : List Server) (tls : TLSSection) : Config :=
  { Listen := "127.0.0.1:53", DoH := { Servers := servers, Timeout := 5, UseHTTP2 := true },
    TLS := tls, Logging := { Level := "info", QueryLogEnabled := true } }

/-- A TLS section with the advanced options switched on or off, issuer
pinning requested, and the given allow-list. -/
def pinning (enabled : Bool) (allowed : List String) : TLSSection :=
  { Enabled := enabled, PrintCertInfo := false, PinCertIssuer := true,
    AllowedIssuers := allowed, InsecureSkipVerify := false }

/-- A certificate for `dns.example` issued by `issuerCN`. -/
def certIssuedBy (issuerCN : String) : Certificate :=
  { SubjectCommonName := "dns.example", IssuerCommonName := issuerCN,
    DNSNames := ["dns.example"] }

/-- Three servers `A`, `B`, `C`. -/
def serversABC : List Server :=
  [{ URL := "https://a.example/dns-query", Name := "A" },
   { URL := "https://b.example/dns-query", Name := "B" },
   { URL := "https://c.example/dns-query", Name := "C" }]

/-- A query for the `A` record of `example.com.` with identifier `id`. -/
def sampleQuery (id : Nat) : Msg :=
  { newMsg with Id := id, RecursionDesired := true,
                Question := [{ Name := "example.com.", Qtype := 1, Qclass := 1 }] }

/-- An `A` record for `example.com.`. -/
def sampleAnswer : RR :=
  { Hdr := { Name := "example.com.", Rrtype := 1, Class := 1, Ttl := 300, Rdlength := 4 },
    data := .A [192, 0, 2, 1] }

/-- A well-formed DoH reply whose body is `body`. -/
def dohReply (body : List Nat) : HttpResponse :=
  { StatusCode := 200, ContentType := "application/dns-message", Body := .ok body }

/-- Servers `A` and `B` time out, every other server echoes the query. -/
def replyOnlyC (url : String) (body : List Nat) : Except String HttpResponse :=
  if url == "https://a.example/dns-query" || url == "https://b.example/dns-query" then
    .error "context deadline exceeded"
  else .ok (dohReply body)

/-- Every server times out. -/
def replyNever (_url : String) (_body : List Nat) : Except String HttpResponse :=
  .error "context deadline exceeded"

/-- Every server answers with a message whose identifier is `id`. -/
def replyWithId (id : Nat) (_url : String) (_body : List Nat) : Except String HttpResponse :=
  .ok (dohReply [id])

/-- Packing that writes the identifier only. -/
def packId (m : Msg) : Except String (List Nat) := .ok [m.Id]

/-- Packing that writes the identifier only and, as the library does,
rejects a question name with two dots in a row. -/
def packChecked (m : Msg) : Except String (List Nat) :=
  if m.Question.any (fun q => Contains q.Name "..") then .error "dns: bad rdata"
  else .ok [m.Id]

/-- A query for the `A` record of `bad..name.`, a name that does not pack. -/
def unpackableQuery (id : Nat) : Msg :=
  { newMsg with Id := id, RecursionDesired := true,
                Question := [{ Name := "bad..name.", Qtype := 1, Qclass := 1 }] }

/-- Request creation that, as `url.Parse` does, rejects a URL that starts
with a colon. -/
def newRequestChecked (url : String) : Except String Unit :=
  if url.toList.head? == some ':' then .error "missing protocol scheme" else .ok ()

/-- The sample environment with request creation checked by
`newRequestChecked`. -/
def sampleEnvChecked (pack : Msg → Except String (List Nat)) (answers : List RR)
    (reply : String → List Nat → Except String HttpResponse) : Env Nat :=
  { sampleEnv pack answers reply with NewRequest := newRequestChecked }

/-- Three servers `A`, `B`, `C`, the URL of `A` lacking its scheme. -/
def serversBadA : List Server :=
  [{ URL := "://a.example/dns-query", Name := "A" },
   { URL := "https://b.example/dns-query", Name := "B" },
   { URL := "https://c.example/dns-query", Name := "C" }]

/-- The HTTP request for the server can be created, so that `queryServer`
goes on to the exchange `http.Client.Do`. -/
def creatable {σ : Type} (env : Env σ) (server : Server) : Bool :=
  match env.NewRequest server.URL with
  | .ok _ => true
  | .error _ => false

/-- The environment `env` over a network state that also keeps, in order,
the URL of every exchange made through `http.Client.Do`. -/
def recording {σ : Type} (env : Env σ) : Env (σ × List String) :=
  { Pack := env.Pack
    Unpack := env.Unpack
    NewRequest := env.NewRequest
    Do := fun w url body =>
      ((env.Do w.1 url body).1, ((env.Do w.1 url body).2, w.2 ++ [url]))
    now := fun w => env.now w.1
    TypeToString := env.TypeToString
    RcodeToString := env.RcodeToString
    ipString := env.ipString
    rrString := env.rrString }

/-- A TLS section with `insecure_skip_verify` set, the advanced options
switched on or off, and issuer pinning requested with the given allow-list. -/
def insecure (enabled : Bool) (allowed : List String) : TLSSection :=
  { Enabled := enabled, PrintCertInfo := true, PinCertIssuer := true,
    AllowedIssuers := allowed, InsecureSkipVerify := true }

/-- Every server sends the HTTP response `httpResp`. -/
def replyAlways (httpResp : HttpResponse) (_url : String) (_body : List Nat) :
    Except String HttpResponse :=
  .ok httpResp

/-! ## Substring containment -/

theorem startsWith_iff (s p : List Char) : startsWith s p = true ↔ p <+: s := by
  induction s generalizing p with
  | nil => cases p <;> simp [startsWith]
  | cons a s ih =>
    cases p with
    | nil => simp [startsWith]
    | cons b p =>
      simp only [startsWith, Bool.and_eq_true, beq_iff_eq, ih, List.cons_prefix_cons]
      constructor <;> rintro ⟨h1, h2⟩ <;> exact ⟨h1.symm, h2⟩

theorem containsChars_iff (s p : List Char) : containsChars s p = true ↔ p <:+: s := by
  induction s with
  | nil => simp [containsChars, startsWith_iff]
  | cons a s ih =>
    simp only [containsChars, Bool.or_eq_true, startsWith_iff, ih]
    rw [List.infix_cons_iff]

/-- `Contains s substr` holds exactly when the characters of `substr` are a
contiguous block of those of `s`. -/
theorem Contains_iff (s substr : String) :
    Contains s substr = true ↔ substr.toList <:+: s.toList :=
  containsChars_iff s.toList substr.toList

/-! ## The trust verifier -/

theorem issuerAllowed_iff (issuerCN : String) (allowed : List String) :
    issuerAllowed issuerCN allowed = true ↔
      ∃ a ∈ allowed, Contains issuerCN a = true ∨ Contains a issuerCN = true := by
  induction allowed with
  | nil => simp [issuerAllowed]
  | cons a rest ih =>
    by_cases h : (Contains issuerCN a || Contains a issuerCN) = true
    · have h2 := h
      simp only [Bool.or_eq_true] at h2
      simp [issuerAllowed, h, h2]
    · have h2 := h
      simp only [Bool.or_eq_true] at h2
      simp [issuerAllowed, h, h2, ih]

theorem chainAllowed_iff (allowed : List String) (chain : List Certificate) :
    chainAllowed allowed chain = true ↔
      ∃ cert ∈ chain, ∃ a ∈ allowed,
        Contains cert.IssuerCommonName a = true ∨ Contains a cert.IssuerCommonName = true := by
  induction chain with
  | nil => simp [chainAllowed]
  | cons c rest ih =>
    cases h : issuerAllowed c.IssuerCommonName allowed with
    | true =>
      have h2 := (issuerAllowed_iff _ _).1 h
      simp only [chainAllowed, h, if_true, List.mem_cons, true_iff]
      exact ⟨c, Or.inl rfl, h2⟩
    | false =>
      have h2 : ¬ ∃ a ∈ allowed, Contains c.IssuerCommonName a = true ∨
          Contains a c.IssuerCommonName = true := by
        intro hx
        rw [(issuerAllowed_iff _ _).2 hx] at h
        exact Bool.noConfusion h
      rw [chainAllowed, h, if_neg Bool.false_ne_true, ih]
      constructor
      · rintro ⟨cert, hc, hrest⟩
        exact ⟨cert, List.mem_cons_of_mem _ hc, hrest⟩
      · rintro ⟨cert, hc, hrest⟩
        rcases List.mem_cons.1 hc with hc | hc
        · exact absurd (hc ▸ hrest) h2
        · exact ⟨cert, hc, hrest⟩

theorem verifyCertificateIssuer_ok_iff (config : Config) (chain : List Certificate) :
    verifyCertificateIssuer config chain = .ok () ↔
      (config.TLS.AllowedIssuers = [] ∨ chainAllowed config.TLS.AllowedIssuers chain = true) := by
  unfold verifyCertificateIssuer
  cases hA : config.TLS.AllowedIssuers with
  | nil => simp
  | cons a rest =>
    cases hc : chainAllowed (a :: rest) chain <;> simp

theorem verifyPeerCertificate_cons (config : Config) (rawCerts : List (List Nat))
    (cert : Certificate) (more : List Certificate) (rest : List (List Certificate)) :
    verifyPeerCertificate config rawCerts ((cert :: more) :: rest) =
      if config.TLS.PinCertIssuer then verifyCertificateIssuer config (cert :: more)
      else .ok () := by
  unfold verifyPeerCertificate
  cases config.TLS.PinCertIssuer
  · simp
  · simp only [if_true]
    cases h : verifyCertificateIssuer config (cert :: more) with
    | error e => rfl
    | ok u => cases u; rfl

theorem verifyPeerCertificate_no_match (config : Config) (rawCerts : List (List Nat))
    (chain : List Certificate) (rest : List (List Certificate))
    (hpin : config.TLS.PinCertIssuer = true) (hne : config.TLS.AllowedIssuers ≠ [])
    (hno : ∀ cert ∈ chain, ∀ a ∈ config.TLS.AllowedIssuers,
      Contains cert.IssuerCommonName a = false ∧ Contains a cert.IssuerCommonName = false) :
    ∃ e, verifyPeerCertificate config rawCerts (chain :: rest) = .error e := by
  cases chain with
  | nil => exact ⟨_, rfl⟩
  | cons cert more =>
    rw [verifyPeerCertificate_cons, if_pos hpin]
    have hc : chainAllowed config.TLS.AllowedIssuers (cert :: more) = false := by
      cases hb : chainAllowed config.TLS.AllowedIssuers (cert :: more) with
      | false => rfl
      | true =>
        obtain ⟨c, hc, a, ha, hm⟩ := (chainAllowed_iff _ _).1 hb
        have := hno c hc a ha
        rcases hm with hm | hm
        · rw [this.1] at hm; exact Bool.noConfusion hm
        · rw [this.2] at hm; exact Bool.noConfusion hm
    unfold verifyCertificateIssuer
    have hlen : (config.TLS.AllowedIssuers.length == 0) = false := by
      cases hA : config.TLS.AllowedIssuers with
      | nil => exact absurd hA hne
      | cons a l => rfl
    rw [hlen, hc]
    exact ⟨_, rfl⟩

/-- C7 as stated fails: with issuer pinning enabled and an allow-list without
entries, a chain none of whose issuers matches an entry is accepted, where
the claim says `verifyPeerCertificate` returns an error. -/
theorem verifyPeerCertificate_empty_allow_list_accepts :
    (sampleConfig [] (pinning true [])).TLS.PinCertIssuer = true ∧
    (∀ cert ∈ [certIssuedBy "OtherCA"],
      ∀ a ∈ (sampleConfig [] (pinning true [])).TLS.AllowedIssuers,
        Contains cert.IssuerCommonName a = false ∧ Contains a cert.IssuerCommonName = false) ∧
    verifyPeerCertificate (sampleConfig [] (pinning true [])) [] [[certIssuedBy "OtherCA"]]
      = .ok () :=
  ⟨rfl, by decide, rfl⟩

/-- C7, amended: `verifyPeerCertificate` returns an error when there is no
verified chain or the first verified chain is empty, and when issuer pinning
is enabled, the allow-list has at least one entry, and no certificate of the
chain has an issuer common name that contains an entry or is contained in
one. With pinning enabled and an allow-list without entries every non-empty
chain is accepted. -/
theorem verifyPeerCertificate_rejects (config : Config) (rawCerts : List (List Nat))
    (verifiedChains : List (List Certificate)) :
    (verifiedChains = [] →
      ∃ e, verifyPeerCertificate config rawCerts verifiedChains = .error e) ∧
    (∀ rest, verifiedChains = [] :: rest →
      ∃ e, verifyPeerCertificate config rawCerts verifiedChains = .error e) ∧
    (∀ chain rest, verifiedChains = chain :: rest →
      config.TLS.PinCertIssuer = true → config.TLS.AllowedIssuers ≠ [] →
      (∀ cert ∈ chain, ∀ a ∈ config.TLS.AllowedIssuers,
        Contains cert.IssuerCommonName a = false ∧ Contains a cert.IssuerCommonName = false) →
      ∃ e, verifyPeerCertificate config rawCerts verifiedChains = .error e) ∧
    (∀ chain rest, verifiedChains = chain :: rest → chain ≠ [] →
      config.TLS.PinCertIssuer = true → config.TLS.AllowedIssuers = [] →
      verifyPeerCertificate config rawCerts verifiedChains = .ok ()) := by
  refine ⟨?_, ?_, ?_, ?_⟩
  · rintro rfl
    exact ⟨_, rfl⟩
  · rintro rest rfl
    exact ⟨_, rfl⟩
  · rintro chain rest rfl hpin hne hno
    exact verifyPeerCertificate_no_match config rawCerts chain rest hpin hne hno
  · rintro chain rest rfl hne hpin hempty
    cases chain with
    | nil => exact absurd rfl hne
    | cons cert more =>
      rw [verifyPeerCertificate_cons, if_pos hpin]
      exact (verifyCertificateIssuer_ok_iff _ _).2 (Or.inl hempty)

/-- C7, amended, at a sample input: allow-list `["ExampleCA"]`, one
certificate issued by `OtherCA`. -/
theorem verifyPeerCertificate_rejects_witness :
    ∃ e, verifyPeerCertificate (sampleConfig [] (pinning true ["ExampleCA"])) []
      [[certIssuedBy "OtherCA"]] = .error e :=
  (verifyPeerCertificate_rejects (sampleConfig [] (pinning true ["ExampleCA"])) []
    [[certIssuedBy "OtherCA"]]).2.2.1 [certIssuedBy "OtherCA"] [] rfl rfl (by decide) (by decide)

/-- C8: with issuer pinning enabled, a non-empty chain is accepted as soon as
some certificate of it, at any position, has an issuer common name that
contains an allow-list entry or is contained in one. With allow-list
`["ExampleCA"]` a chain with an issuer `ExampleCA Intermediate` is accepted
and a chain whose only issuer is `OtherCA` is rejected with an error. -/
theorem verifyPeerCertificate_accepts_matching_issuer :
    (∀ (config : Config) (rawCerts : List (List Nat)) (chain : List Certificate)
        (rest : List (List Certificate)),
      config.TLS.PinCertIssuer = true → chain ≠ [] →
      (∃ cert ∈ chain, ∃ a ∈ config.TLS.AllowedIssuers,
        Contains cert.IssuerCommonName a = true ∨ Contains a cert.IssuerCommonName = true) →
      verifyPeerCertificate config rawCerts (chain :: rest) = .ok ()) ∧
    (∀ (config : Config) (rawCerts : List (List Nat)) (chain : List Certificate)
        (rest : List (List Certificate)),
      config.TLS.PinCertIssuer = true → config.TLS.AllowedIssuers = ["ExampleCA"] →
      (∃ cert ∈ chain, cert.IssuerCommonName = "ExampleCA Intermediate") →
      verifyPeerCertificate config rawCerts (chain :: rest) = .ok ()) ∧
    (∀ (config : Config) (rawCerts : List (List Nat)) (chain : List Certificate)
        (rest : List (List Certificate)),
      config.TLS.PinCertIssuer = true → config.TLS.AllowedIssuers = ["ExampleCA"] →
      chain ≠ [] → (∀ cert ∈ chain, cert.IssuerCommonName = "OtherCA") →
      ∃ e, verifyPeerCertificate config rawCerts (chain :: rest) = .error e) := by
  have general : ∀ (config : Config) (rawCerts : List (List Nat)) (chain : List Certificate)
      (rest : List (List Certificate)),
      config.TLS.PinCertIssuer = true → chain ≠ [] →
      (∃ cert ∈ chain, ∃ a ∈ config.TLS.AllowedIssuers,
        Contains cert.IssuerCommonName a = true ∨ Contains a cert.IssuerCommonName = true) →
      verifyPeerCertificate config rawCerts (chain :: rest) = .ok () := by
    intro config rawCerts chain rest hpin hne hex
    cases chain with
    | nil => exact absurd rfl hne
    | cons cert more =>
      rw [verifyPeerCertificate_cons, if_pos hpin]
      exact (verifyCertificateIssuer_ok_iff _ _).2 (Or.inr ((chainAllowed_iff _ _).2 hex))
  refine ⟨general, ?_, ?_⟩
  · intro config rawCerts chain rest hpin hallow hex
    obtain ⟨cert, hc, hcn⟩ := hex
    have hne : chain ≠ [] := List.ne_nil_of_mem hc
    refine general config rawCerts chain rest hpin hne ⟨cert, hc, "ExampleCA", ?_, Or.inl ?_⟩
    · rw [hallow]; exact List.mem_singleton.2 rfl
    · rw [hcn]; decide
  · intro config rawCerts chain rest hpin hallow hne hall
    apply verifyPeerCertificate_no_match config rawCerts chain rest hpin
      (by rw [hallow]; exact List.cons_ne_nil _ _)
    intro cert hc a ha
    rw [hallow] at ha
    rw [List.mem_singleton.1 ha, hall cert hc]
    decide

/-- C8 at a sample input: the leaf is issued by `OtherCA`, the second
certificate of the chain by `ExampleCA Intermediate`. -/
theorem verifyPeerCertificate_accepts_matching_issuer_witness :
    verifyPeerCertificate (sampleConfig [] (pinning true ["ExampleCA"])) []
      [[certIssuedBy "OtherCA", certIssuedBy "ExampleCA Intermediate"]] = .ok () :=
  verifyPeerCertificate_accepts_matching_issuer.1 (sampleConfig [] (pinning true ["ExampleCA"]))
    [] [certIssuedBy "OtherCA", certIssuedBy "ExampleCA Intermediate"] [] rfl (by decide)
    (by decide)

/-- C9 as stated fails: with the TLS options switched off (`enabled` false),
issuer pinning requested and an allow-list without entries,
`ValidateTLSConfig` returns no error. -/
theorem ValidateTLSConfig_disabled_accepts :
    (sampleConfig [] (pinning false [])).TLS.PinCertIssuer = true ∧
    (sampleConfig [] (pinning false [])).TLS.AllowedIssuers = [] ∧
    ValidateTLSConfig (sampleConfig [] (pinning false [])) = .ok () :=
  ⟨rfl, rfl, rfl⟩

/-- C9, amended: when the TLS options are switched on (`enabled` true),
issuer pinning is requested and the allow-list has no entries,
`ValidateTLSConfig` returns an error; it returns an error in no other case,
and its result does not depend on `insecure_skip_verify`. -/
theorem ValidateTLSConfig_error_iff (config : Config) :
    (config.TLS.Enabled = true → config.TLS.PinCertIssuer = true →
      config.TLS.AllowedIssuers = [] → ∃ e, ValidateTLSConfig config = .error e) ∧
    (∀ e, ValidateTLSConfig config = .error e →
      config.TLS.Enabled = true ∧ config.TLS.PinCertIssuer = true ∧
        config.TLS.AllowedIssuers = []) ∧
    (∀ b : Bool,
      ValidateTLSConfig { config with TLS := { config.TLS with InsecureSkipVerify := b } }
        = ValidateTLSConfig config) := by
  refine ⟨?_, ?_, ?_⟩
  · intro hen hpin hempty
    unfold ValidateTLSConfig
    rw [hen, hpin, hempty]
    exact ⟨_, rfl⟩
  · intro e he
    unfold ValidateTLSConfig at he
    cases hen : config.TLS.Enabled <;> rw [hen] at he
    · exact Except.noConfusion he
    · cases hpin : config.TLS.PinCertIssuer <;> rw [hpin] at he
      · exact Except.noConfusion he
      · cases hA : config.TLS.AllowedIssuers with
        | nil => exact ⟨rfl, rfl, rfl⟩
        | cons a l =>
          rw [hA] at he
          exact Except.noConfusion he
  · intro b
    rfl

/-- C9, amended, at a sample input: TLS options on, pinning requested, no
allowed issuer. -/
theorem ValidateTLSConfig_error_iff_witness :
    ∃ e, ValidateTLSConfig (sampleConfig [] (pinning true [])) = .error e :=
  (ValidateTLSConfig_error_iff (sampleConfig [] (pinning true []))).1 rfl rfl rfl

/-! ## The forwarder -/

section Forwarder

variable {σ : Type}

/-- The outcome of `queryServer` when the request cannot be created. -/
theorem queryServer_of_request_error (env : Env σ) (w : σ) (serverURL : String)
    (packed : List Nat) (err : String) (hreq : env.NewRequest serverURL = .error err) :
    queryServer env w serverURL packed
      = (.error ("failed to create HTTP request: " ++ err), w) := by
  unfold queryServer
  rw [hreq]

/-- The outcome of `queryServer` when the exchange itself fails. -/
theorem queryServer_of_send_error (env : Env σ) (w w1 : σ) (serverURL : String)
    (packed : List Nat) (err : String) (hreq : env.NewRequest serverURL = .ok ())
    (hdo : env.Do w serverURL packed = (.error err, w1)) :
    queryServer env w serverURL packed
      = (.error ("failed to send DoH request: " ++ err), w1) := by
  unfold queryServer
  rw [hreq]
  simp only [hdo]

/-- The outcome of `queryServer` once the exchange has produced an HTTP
response: the checks on status, content type, body and decoding, in that
order. -/
theorem queryServer_of_response (env : Env σ) (w w1 : σ) (serverURL : String)
    (packed : List Nat) (httpResp : HttpResponse) (hreq : env.NewRequest serverURL = .ok ())
    (hdo : env.Do w serverURL packed = (.ok httpResp, w1)) :
    queryServer env w serverURL packed =
      if httpResp.StatusCode ≠ StatusOK then
        (.error ("DoH server returned error status code: " ++ toString httpResp.StatusCode), w1)
      else if httpResp.ContentType ≠ "application/dns-message" then
        (.error ("DoH server returned invalid content type: " ++ httpResp.ContentType), w1)
      else
        match httpResp.Body with
        | .error err => (.error ("failed to read DoH response: " ++ err), w1)
        | .ok body =>
          match env.Unpack body with
          | .error err => (.error ("failed to parse DNS response: " ++ err), w1)
          | .ok resp => (.ok resp, w1) := by
  unfold queryServer
  rw [hreq]
  simp only [hdo, bne_iff_ne, ne_eq, ite_not]

/-- In a non-empty list the error carried into the loop is overwritten or
unused: the outcome does not depend on it. -/
theorem queryLoop_cons_lastErr (env : Env σ) (packed : List Nat) (server : Server)
    (rest : List Server) (l1 l2 : Option String) (w : σ) :
    queryLoop env packed (server :: rest) l1 w = queryLoop env packed (server :: rest) l2 w :=
  rfl

theorem queryLoop_cons_error (env : Env σ) (packed : List Nat) (server : Server)
    (rest : List Server) (l : Option String) (w w1 : σ) (e : String)
    (h : queryServer env w server.URL packed = (.error e, w1)) :
    queryLoop env packed (server :: rest) l w =
      { queryLoop env packed rest (some e) w1 with
        attempted := server :: (queryLoop env packed rest (some e) w1).attempted } := by
  simp only [queryLoop, h]

theorem queryLoop_cons_ok (env : Env σ) (packed : List Nat) (server : Server)
    (rest : List Server) (l : Option String) (w w1 : σ) (resp : Msg)
    (h : queryServer env w server.URL packed = (.ok resp, w1)) :
    queryLoop env packed (server :: rest) l w =
      { resp := some resp, server := server.Name, err := none, attempted := [server],
        world := w1 } := by
  simp only [queryLoop, h]

theorem failAll_cons_error (env : Env σ) (packed : List Nat) (server : Server)
    (rest : List Server) (w w1 : σ) (e : String)
    (h : queryServer env w server.URL packed = (.error e, w1)) :
    failAll env packed (server :: rest) w = failAll env packed rest w1 := by
  simp only [failAll, h]

theorem failAll_cons_ok (env : Env σ) (packed : List Nat) (server : Server)
    (rest : List Server) (w w1 : σ) (resp : Msg)
    (h : queryServer env w server.URL packed = (.ok resp, w1)) :
    failAll env packed (server :: rest) w = none := by
  simp only [failAll, h]

/-- After a run of failed attempts the loop continues with the remaining
servers from the network state reached. -/
theorem queryLoop_append (env : Env σ) (packed : List Nat) (pre rest : List Server)
    (hrest : rest ≠ []) (l : Option String) (w w1 : σ)
    (hpre : failAll env packed pre w = some w1) :
    queryLoop env packed (pre ++ rest) l w =
      { queryLoop env packed rest l w1 with
        attempted := pre ++ (queryLoop env packed rest l w1).attempted } := by
  induction pre generalizing l w with
  | nil =>
    simp only [failAll, Option.some.injEq] at hpre
    subst hpre
    rfl
  | cons server pre ih =>
    rcases hq : queryServer env w server.URL packed with ⟨res, w2⟩
    cases res with
    | ok resp =>
      rw [failAll_cons_ok env packed server pre w w2 resp hq] at hpre
      exact Option.noConfusion hpre
    | error e =>
      rw [failAll_cons_error env packed server pre w w2 e hq] at hpre
      rw [List.cons_append, queryLoop_cons_error env packed server (pre ++ rest) l w w2 e hq,
        ih (some e) w2 hpre]
      cases rest with
      | nil => exact absurd rfl hrest
      | cons r rest =>
        rw [queryLoop_cons_lastErr env packed r rest (some e) l w1]
        rfl

/-- The outcome when a run of failed attempts is followed by a success. -/
theorem queryLoop_first_success (env : Env σ) (packed : List Nat) (pre post : List Server)
    (s : Server) (l : Option String) (w w1 w2 : σ) (resp : Msg)
    (hpre : failAll env packed pre w = some w1)
    (hs : queryServer env w1 s.URL packed = (.ok resp, w2)) :
    queryLoop env packed (pre ++ s :: post) l w =
      { resp := some resp, server := s.Name, err := none, attempted := pre ++ [s],
        world := w2 } := by
  rw [queryLoop_append env packed pre (s :: post) (List.cons_ne_nil _ _) l w w1 hpre,
    queryLoop_cons_ok env packed s post l w1 w2 resp hs]

/-- The outcome when a run of failed attempts is followed by a last failed
attempt. -/
theorem queryLoop_last_failure (env : Env σ) (packed : List Nat) (init : List Server)
    (last : Server) (l : Option String) (w w1 w2 : σ) (e : String)
    (hinit : failAll env packed init w = some w1)
    (hlast : queryServer env w1 last.URL packed = (.error e, w2)) :
    queryLoop env packed (init ++ [last]) l w =
      { resp := none, server := "", err := some ("all DoH servers failed, last error: " ++ e),
        attempted := init ++ [last], world := w2 } := by
  rw [queryLoop_append env packed init [last] (List.cons_ne_nil _ _) l w w1 hinit,
    queryLoop_cons_error env packed last [] l w1 w2 e hlast]
  rfl

/-- When every attempt fails the loop has tried the whole list and returns
no response, no server name and an error. -/
theorem queryLoop_all_fail (env : Env σ) (packed : List Nat) (servers : List Server)
    (l : Option String) (w w1 : σ) (hall : failAll env packed servers w = some w1) :
    (queryLoop env packed servers l w).attempted = servers ∧
    (queryLoop env packed servers l w).resp = none ∧
    (queryLoop env packed servers l w).server = "" ∧
    (∃ e, (queryLoop env packed servers l w).err = some e) ∧
    (queryLoop env packed servers l w).world = w1 := by
  induction servers generalizing l w with
  | nil =>
    simp only [failAll, Option.some.injEq] at hall
    subst hall
    cases l with
    | none => exact ⟨rfl, rfl, rfl, ⟨_, rfl⟩, rfl⟩
    | some e => exact ⟨rfl, rfl, rfl, ⟨_, rfl⟩, rfl⟩
  | cons server rest ih =>
    rcases hq : queryServer env w server.URL packed with ⟨res, w2⟩
    cases res with
    | ok resp =>
      rw [failAll_cons_ok env packed server rest w w2 resp hq] at hall
      exact Option.noConfusion hall
    | error e =>
      rw [failAll_cons_error env packed server rest w w2 e hq] at hall
      rw [queryLoop_cons_error env packed server rest l w w2 e hq]
      obtain ⟨h1, h2, h3, h4, h5⟩ := ih (some e) w2 hall
      exact ⟨by rw [h1], h2, h3, h4, h5⟩

/-- Either every attempt fails, or the list splits at a first success. -/
theorem failAll_or_first_success (env : Env σ) (packed : List Nat) (servers : List Server)
    (w : σ) :
    (∃ w1, failAll env packed servers w = some w1) ∨
    (∃ pre s post w1 resp w2, servers = pre ++ s :: post ∧
      failAll env packed pre w = some w1 ∧
      queryServer env w1 s.URL packed = (.ok resp, w2)) := by
  induction servers generalizing w with
  | nil => exact Or.inl ⟨w, rfl⟩
  | cons server rest ih =>
    rcases hq : queryServer env w server.URL packed with ⟨res, w2⟩
    cases res with
    | ok resp => exact Or.inr ⟨[], server, rest, w, resp, w2, rfl, rfl, hq⟩
    | error e =>
      rcases ih w2 with ⟨w1, h⟩ | ⟨pre, s, post, w1, resp, w3, hsplit, hpre, hs⟩
      · exact Or.inl ⟨w1, by rw [failAll_cons_error env packed server rest w w2 e hq]; exact h⟩
      · refine Or.inr ⟨server :: pre, s, post, w1, resp, w3, by rw [hsplit]; rfl, ?_, hs⟩
        rw [failAll_cons_error env packed server pre w w2 e hq]
        exact hpre

/-- `QueryWithServer` returns either a response and no error, or an error,
no response and the empty server name. -/
theorem QueryWithServer_shape (env : Env σ) (config : Config) (w : σ) (req : Msg) :
    ((QueryWithServer env config w req).err = none ∧
      ∃ resp, (QueryWithServer env config w req).resp = some resp) ∨
    ((∃ e, (QueryWithServer env config w req).err = some e) ∧
      (QueryWithServer env config w req).resp = none ∧
      (QueryWithServer env config w req).server = "") := by
  unfold QueryWithServer
  cases hp : env.Pack req with
  | error e => exact Or.inr ⟨⟨_, rfl⟩, rfl, rfl⟩
  | ok packed =>
    rcases failAll_or_first_success env packed config.DoH.Servers w with
      ⟨w1, h⟩ | ⟨pre, s, post, w1, resp, w2, hsplit, hpre, hs⟩
    · obtain ⟨_, h2, h3, h4, _⟩ := queryLoop_all_fail env packed config.DoH.Servers none w w1 h
      exact Or.inr ⟨h4, h2, h3⟩
    · simp only []
      rw [hsplit, queryLoop_first_success env packed pre post s none w w1 w2 resp hpre hs]
      exact Or.inl ⟨rfl, ⟨_, rfl⟩⟩

/-- C2: when the query packs and the configured list splits into servers whose
attempts all fail, a server whose attempt succeeds with `resp`, and the
servers after it, `QueryWithServer` returns `resp` without error, paired
with the name of that server. -/
theorem QueryWithServer_first_success (env : Env σ) (config : Config) (w : σ) (req : Msg)
    (packed : List Nat) (pre : List Server) (s : Server) (post : List Server) (w1 : σ)
    (resp : Msg) (w2 : σ)
    (hpack : env.Pack req = .ok packed)
    (hsplit : config.DoH.Servers = pre ++ s :: post)
    (hpre : failAll env packed pre w = some w1)
    (hs : queryServer env w1 s.URL packed = (.ok resp, w2)) :
    (QueryWithServer env config w req).err = none ∧
    (QueryWithServer env config w req).resp = some resp ∧
    (QueryWithServer env config w req).server = s.Name := by
  unfold QueryWithServer
  rw [hpack]
  simp only []
  rw [hsplit, queryLoop_first_success env packed pre post s none w w1 w2 resp hpre hs]
  exact ⟨rfl, rfl, rfl⟩

/-- C2 at a sample input: servers `A` and `B` time out and `C` answers; the
result is the answer of `C` and the name `C`. -/
theorem QueryWithServer_first_success_witness :
    (QueryWithServer (sampleEnv packId [sampleAnswer] replyOnlyC)
      (sampleConfig serversABC (pinning false [])) 0 (sampleQuery 7)).err = none ∧
    (QueryWithServer (sampleEnv packId [sampleAnswer] replyOnlyC)
      (sampleConfig serversABC (pinning false [])) 0 (sampleQuery 7)).resp
      = some { newMsg with Id := 7, Response := true, Answer := [sampleAnswer] } ∧
    (QueryWithServer (sampleEnv packId [sampleAnswer] replyOnlyC)
      (sampleConfig serversABC (pinning false [])) 0 (sampleQuery 7)).server = "C" :=
  QueryWithServer_first_success (sampleEnv packId [sampleAnswer] replyOnlyC)
    (sampleConfig serversABC (pinning false [])) 0 (sampleQuery 7) [7]
    [{ URL := "https://a.example/dns-query", Name := "A" },
     { URL := "https://b.example/dns-query", Name := "B" }]
    { URL := "https://c.example/dns-query", Name := "C" } [] 2
    { newMsg with Id := 7, Response := true, Answer := [sampleAnswer] } 3 rfl rfl rfl rfl

/-- One attempt in the recording environment is the attempt in the
environment itself, and the URL is recorded exactly when the request could
be created. -/
theorem queryServer_recording (env : Env σ) (w : σ) (log : List String) (server : Server)
    (packed : List Nat) :
    queryServer (recording env) (w, log) server.URL packed =
      ((queryServer env w server.URL packed).1,
       ((queryServer env w server.URL packed).2,
        log ++ (if creatable env server then [server.URL] else []))) := by
  cases hreq : env.NewRequest server.URL with
  | error e =>
    have hrec : (recording env).NewRequest server.URL = .error e := hreq
    rw [queryServer_of_request_error (recording env) (w, log) server.URL packed e hrec,
      queryServer_of_request_error env w server.URL packed e hreq]
    simp [creatable, hreq]
  | ok u =>
    cases u
    have hrec : (recording env).NewRequest server.URL = .ok () := hreq
    rcases hdo : env.Do w server.URL packed with ⟨res, w1⟩
    have hdorec : (recording env).Do (w, log) server.URL packed
        = (res, (w1, log ++ [server.URL])) := by
      simp [recording, hdo]
    cases res with
    | error e =>
      rw [queryServer_of_send_error (recording env) (w, log) (w1, log ++ [server.URL])
          server.URL packed e hrec hdorec,
        queryServer_of_send_error env w w1 server.URL packed e hreq hdo]
      simp [creatable, hreq]
    | ok httpResp =>
      rw [queryServer_of_response (recording env) (w, log) (w1, log ++ [server.URL])
          server.URL packed httpResp hrec hdorec,
        queryServer_of_response env w w1 server.URL packed httpResp hreq hdo]
      have hun : (recording env).Unpack = env.Unpack := rfl
      rw [hun]
      simp only [creatable, hreq, if_true]
      split_ifs
      · rfl
      · rfl
      · cases httpResp.Body with
        | error e => rfl
        | ok body =>
          dsimp only
          cases env.Unpack body <;> rfl

/-- The loop in the recording environment returns what the loop returns in
the environment itself, and records, in order, the URLs of the attempted
servers whose request could be created. -/
theorem queryLoop_recording (env : Env σ) (packed : List Nat) (servers : List Server)
    (l : Option String) (w : σ) (log : List String) :
    queryLoop (recording env) packed servers l (w, log) =
      { resp := (queryLoop env packed servers l w).resp,
        server := (queryLoop env packed servers l w).server,
        err := (queryLoop env packed servers l w).err,
        attempted := (queryLoop env packed servers l w).attempted,
        world := ((queryLoop env packed servers l w).world,
          log ++ (((queryLoop env packed servers l w).attempted.filter
            (creatable env)).map Server.URL)) } := by
  induction servers generalizing l w log with
  | nil => cases l <;> simp [queryLoop]
  | cons server rest ih =>
    have hrec := queryServer_recording env w log server packed
    rcases hq : queryServer env w server.URL packed with ⟨res, w1⟩
    rw [hq] at hrec
    cases res with
    | error e =>
      rw [queryLoop_cons_error (recording env) packed server rest l (w, log) _ e hrec,
        queryLoop_cons_error env packed server rest l w w1 e hq, ih]
      cases hc : creatable env server <;> simp [List.filter_cons, hc]
    | ok resp =>
      rw [queryLoop_cons_ok (recording env) packed server rest l (w, log) _ resp hrec,
        queryLoop_cons_ok env packed server rest l w w1 resp hq]
      have hc : creatable env server = true := by
        cases hreq : env.NewRequest server.URL with
        | ok u => simp [creatable, hreq]
        | error e2 =>
          rw [queryServer_of_request_error env w server.URL packed e2 hreq] at hq
          cases hq
      simp [List.filter_cons, hc]

/-- A server whose attempt succeeds had its request created. -/
theorem creatable_of_ok (env : Env σ) (w w1 : σ) (server : Server) (packed : List Nat)
    (resp : Msg) (hq : queryServer env w server.URL packed = (.ok resp, w1)) :
    creatable env server = true := by
  cases hreq : env.NewRequest server.URL with
  | ok u => simp [creatable, hreq]
  | error e =>
    rw [queryServer_of_request_error env w server.URL packed e hreq] at hq
    cases hq

/-- `QueryWithServer` in the recording environment returns what it returns
in the environment itself, and records, in order, the URLs of the attempted
servers whose request could be created. -/
theorem QueryWithServer_recording (env : Env σ) (config : Config) (w : σ) (log : List String)
    (req : Msg) :
    QueryWithServer (recording env) config (w, log) req =
      { resp := (QueryWithServer env config w req).resp,
        server := (QueryWithServer env config w req).server,
        err := (QueryWithServer env config w req).err,
        attempted := (QueryWithServer env config w req).attempted,
        world := ((QueryWithServer env config w req).world,
          log ++ (((QueryWithServer env config w req).attempted.filter
            (creatable env)).map Server.URL)) } := by
  unfold QueryWithServer
  have hpack : (recording env).Pack req = env.Pack req := rfl
  rw [hpack]
  cases env.Pack req with
  | error e => simp
  | ok packed => exact queryLoop_recording env packed config.DoH.Servers none w log

/-- C3 as stated fails. First input: the URL of `A` lacks its scheme, `B`
times out and `C` answers; `C` is the first server that succeeds, yet the
exchanges made are with `B` and `C` only, not with the prefix `A`, `B`, `C`
of the configured list. Second input: the question name does not pack; no
server succeeds, yet no exchange is made, not one with each configured
server. -/
theorem QueryWithServer_skips_uncreatable :
    ((QueryWithServer (sampleEnvChecked packId [sampleAnswer] replyOnlyC)
        (sampleConfig serversBadA (pinning false [])) 0 (sampleQuery 7)).server = "C" ∧
      (QueryWithServer (recording (sampleEnvChecked packId [sampleAnswer] replyOnlyC))
        (sampleConfig serversBadA (pinning false [])) (0, []) (sampleQuery 7)).world.2
        = ["https://b.example/dns-query", "https://c.example/dns-query"] ∧
      (QueryWithServer (recording (sampleEnvChecked packId [sampleAnswer] replyOnlyC))
        (sampleConfig serversBadA (pinning false [])) (0, []) (sampleQuery 7)).world.2
        ≠ serversBadA.map Server.URL) ∧
    ((QueryWithServer (sampleEnvChecked packChecked [sampleAnswer] replyOnlyC)
        (sampleConfig serversABC (pinning false [])) 0 (unpackableQuery 7)).resp = none ∧
      (QueryWithServer (recording (sampleEnvChecked packChecked [sampleAnswer] replyOnlyC))
        (sampleConfig serversABC (pinning false [])) (0, []) (unpackableQuery 7)).world.2
        = [] ∧
      (QueryWithServer (recording (sampleEnvChecked packChecked [sampleAnswer] replyOnlyC))
        (sampleConfig serversABC (pinning false [])) (0, []) (unpackableQuery 7)).world.2
        ≠ serversABC.map Server.URL) := by
  decide

/-- C3, amended: for a query that packs, the servers `QueryWithServer` hands
to `queryServer` are, in order and once each, the configured servers up to
and including the first whose attempt succeeds, and the whole list when
every attempt fails; the exchanges it makes through `http.Client.Do` are, in
order and once each, with those of these servers whose request can be
created from the configured URL, the succeeding server being the last. In
particular one exchange is made when the first server succeeds. For a query
that does not pack no server is attempted and no exchange is made. -/
theorem QueryWithServer_contacted (env : Env σ) (config : Config) (w : σ) (log : List String)
    (req : Msg) :
    (∀ packed, env.Pack req = .ok packed →
      (∀ pre s post w1 resp w2, config.DoH.Servers = pre ++ s :: post →
        failAll env packed pre w = some w1 →
        queryServer env w1 s.URL packed = (.ok resp, w2) →
        (QueryWithServer env config w req).attempted = pre ++ [s] ∧
        (QueryWithServer (recording env) config (w, log) req).world.2
          = log ++ ((pre.filter (creatable env)).map Server.URL ++ [s.URL])) ∧
      (∀ s post resp w2, config.DoH.Servers = s :: post →
        queryServer env w s.URL packed = (.ok resp, w2) →
        (QueryWithServer env config w req).attempted = [s] ∧
        (QueryWithServer (recording env) config (w, log) req).world.2 = log ++ [s.URL]) ∧
      (∀ w1, failAll env packed config.DoH.Servers w = some w1 →
        (QueryWithServer env config w req).attempted = config.DoH.Servers ∧
        (QueryWithServer (recording env) config (w, log) req).world.2
          = log ++ (config.DoH.Servers.filter (creatable env)).map Server.URL)) ∧
    (∀ e, env.Pack req = .error e →
      (QueryWithServer env config w req).attempted = [] ∧
      (QueryWithServer (recording env) config (w, log) req).world.2 = log) ∧
    ((QueryWithServer (recording env) config (w, log) req).resp
        = (QueryWithServer env config w req).resp ∧
      (QueryWithServer (recording env) config (w, log) req).server
        = (QueryWithServer env config w req).server ∧
      (QueryWithServer (recording env) config (w, log) req).err
        = (QueryWithServer env config w req).err ∧
      (QueryWithServer (recording env) config (w, log) req).world.1
        = (QueryWithServer env config w req).world) := by
  have hrec := QueryWithServer_recording env config w log req
  have hlog : (QueryWithServer (recording env) config (w, log) req).world.2
      = log ++ (((QueryWithServer env config w req).attempted.filter
          (creatable env)).map Server.URL) := by
    rw [hrec]
  refine ⟨?_, ?_, ?_⟩
  · intro packed hpack
    have hq : QueryWithServer env config w req = queryLoop env packed config.DoH.Servers none w := by
      unfold QueryWithServer
      rw [hpack]
    refine ⟨?_, ?_, ?_⟩
    · intro pre s post w1 resp w2 hsplit hpre hs
      have hatt : (QueryWithServer env config w req).attempted = pre ++ [s] := by
        rw [hq, hsplit, queryLoop_first_success env packed pre post s none w w1 w2 resp hpre hs]
      refine ⟨hatt, ?_⟩
      rw [hlog, hatt, List.filter_append, List.map_append, List.filter_cons,
        creatable_of_ok env w1 w2 s packed resp hs]
      rfl
    · intro s post resp w2 hsplit hs
      have hatt : (QueryWithServer env config w req).attempted = [s] := by
        rw [hq, hsplit, queryLoop_cons_ok env packed s post none w w2 resp hs]
      refine ⟨hatt, ?_⟩
      rw [hlog, hatt, List.filter_cons, creatable_of_ok env w w2 s packed resp hs]
      rfl
    · intro w1 hall
      have hatt : (QueryWithServer env config w req).attempted = config.DoH.Servers := by
        rw [hq]
        exact (queryLoop_all_fail env packed config.DoH.Servers none w w1 hall).1
      exact ⟨hatt, by rw [hlog, hatt]⟩
  · intro e hpack
    have hatt : (QueryWithServer env config w req).attempted = [] := by
      unfold QueryWithServer
      rw [hpack]
    refine ⟨hatt, ?_⟩
    rw [hlog, hatt]
    simp
  · rw [hrec]
    exact ⟨rfl, rfl, rfl, rfl⟩

/-- C3, amended, at a sample input: the URL of `A` lacks its scheme, `B`
times out and `C` answers; the three servers are attempted and the exchanges
are with `B` and `C`. -/
theorem QueryWithServer_contacted_witness :
    (QueryWithServer (sampleEnvChecked packId [sampleAnswer] replyOnlyC)
      (sampleConfig serversBadA (pinning false [])) 0 (sampleQuery 7)).attempted
      = serversBadA ∧
    (QueryWithServer (recording (sampleEnvChecked packId [sampleAnswer] replyOnlyC))
      (sampleConfig serversBadA (pinning false [])) (0, []) (sampleQuery 7)).world.2
      = ["https://b.example/dns-query", "https://c.example/dns-query"] :=
  (QueryWithServer_contacted (sampleEnvChecked packId [sampleAnswer] replyOnlyC)
    (sampleConfig serversBadA (pinning false [])) 0 [] (sampleQuery 7)).1 [7] rfl |>.1
    [{ URL := "://a.example/dns-query", Name := "A" },
     { URL := "https://b.example/dns-query", Name := "B" }]
    { URL := "https://c.example/dns-query", Name := "C" } [] 1
    { newMsg with Id := 7, Response := true, Answer := [sampleAnswer] } 2 rfl rfl rfl

/-- C10 as stated fails: with no server configured the query packs, every
configured server fails (there is none), nothing is attempted, and the error
returned is a fixed message that wraps no server error. -/
theorem QueryWithServer_no_servers :
    (sampleEnv packId [sampleAnswer] replyNever).Pack (sampleQuery 7) = .ok [7] ∧
    failAll (sampleEnv packId [sampleAnswer] replyNever) [7]
      (sampleConfig [] (pinning false [])).DoH.Servers 0 = some 0 ∧
    (QueryWithServer (sampleEnv packId [sampleAnswer] replyNever)
      (sampleConfig [] (pinning false [])) 0 (sampleQuery 7)).attempted = [] ∧
    (QueryWithServer (sampleEnv packId [sampleAnswer] replyNever)
      (sampleConfig [] (pinning false [])) 0 (sampleQuery 7)).err
      = some "no available DoH servers" :=
  ⟨rfl, rfl, rfl, rfl⟩

/-- C10, amended: for a query that packs, when the configured list is not
empty, every server before the last fails and the attempt on the last server
fails with error `e`, `QueryWithServer` returns no response, the empty server
name, and the error `all DoH servers failed, last error: e`; when no server
is configured it returns no response, the empty server name and the error
`no available DoH servers`. -/
theorem QueryWithServer_all_fail (env : Env σ) (config : Config) (w : σ) (req : Msg)
    (packed : List Nat) (hpack : env.Pack req = .ok packed) :
    (∀ init last w1 e w2, config.DoH.Servers = init ++ [last] →
      failAll env packed init w = some w1 →
      queryServer env w1 last.URL packed = (.error e, w2) →
      (QueryWithServer env config w req).resp = none ∧
      (QueryWithServer env config w req).server = "" ∧
      (QueryWithServer env config w req).err
        = some ("all DoH servers failed, last error: " ++ e)) ∧
    (config.DoH.Servers = [] →
      (QueryWithServer env config w req).resp = none ∧
      (QueryWithServer env config w req).server = "" ∧
      (QueryWithServer env config w req).err = some "no available DoH servers") := by
  have hq : QueryWithServer env config w req = queryLoop env packed config.DoH.Servers none w := by
    unfold QueryWithServer
    rw [hpack]
  refine ⟨?_, ?_⟩
  · intro init last w1 e w2 hsplit hinit hlast
    rw [hq, hsplit, queryLoop_last_failure env packed init last none w w1 w2 e hinit hlast]
    exact ⟨rfl, rfl, rfl⟩
  · intro hempty
    rw [hq, hempty]
    exact ⟨rfl, rfl, rfl⟩

/-- C10, amended, at a sample input: `A`, `B` and `C` all time out. -/
theorem QueryWithServer_all_fail_witness :
    (QueryWithServer (sampleEnv packId [sampleAnswer] replyNever)
      (sampleConfig serversABC (pinning false [])) 0 (sampleQuery 7)).resp = none ∧
    (QueryWithServer (sampleEnv packId [sampleAnswer] replyNever)
      (sampleConfig serversABC (pinning false [])) 0 (sampleQuery 7)).server = "" ∧
    (QueryWithServer (sampleEnv packId [sampleAnswer] replyNever)
      (sampleConfig serversABC (pinning false [])) 0 (sampleQuery 7)).err
      = some ("all DoH servers failed, last error: "
          ++ "failed to send DoH request: context deadline exceeded") :=
  (QueryWithServer_all_fail (sampleEnv packId [sampleAnswer] replyNever)
    (sampleConfig serversABC (pinning false [])) 0 (sampleQuery 7) [7] rfl).1
    [{ URL := "https://a.example/dns-query", Name := "A" },
     { URL := "https://b.example/dns-query", Name := "B" }]
    { URL := "https://c.example/dns-query", Name := "C" } 2
    "failed to send DoH request: context deadline exceeded" 3 rfl rfl rfl

end Forwarder

/-! ## The query relay -/

section Relay

variable {σ : Type}

theorem SetReply_Id (m request : Msg) : (SetReply m request).Id = request.Id := by
  unfold SetReply
  cases request.Question <;> simp only [] <;> split_ifs <;> rfl

theorem SetReply_Answer (m request : Msg) : (SetReply m request).Answer = m.Answer := by
  unfold SetReply
  cases request.Question <;> simp only [] <;> split_ifs <;> rfl

theorem SetRcode_Rcode (m request : Msg) (rcode : Int) :
    (SetRcode m request rcode).Rcode = rcode :=
  rfl

theorem SetRcode_Id (m request : Msg) (rcode : Int) :
    (SetRcode m request rcode).Id = request.Id :=
  SetReply_Id m request

theorem SetRcode_Answer (m request : Msg) (rcode : Int) :
    (SetRcode m request rcode).Answer = m.Answer :=
  SetReply_Answer m request

/-- The answer loop appends the entry of each record, in order. -/
theorem extractAnswers_eq (env : Env σ) (records : List RR) (answers : List AnswerEntry) :
    extractAnswers env records answers = answers ++ records.map (answerEntry env) := by
  induction records generalizing answers with
  | nil => simp [extractAnswers]
  | cons ans rest ih => simp [extractAnswers, ih]

theorem question_length_ne (req : Msg) (hq : req.Question ≠ []) :
    (req.Question.length == 0) = false := by
  cases h : req.Question with
  | nil => exact absurd h hq
  | cons q rest => rfl

/-- The handler on the path where the question section is empty. -/
theorem handleDNSRequest_no_question (env : Env σ) (config : Config) (clientAddr : String)
    (w : σ) (req : Msg) (hq : req.Question = []) :
    handleDNSRequest env config clientAddr w req =
      { written := [SetRcode { SetReply newMsg req with Compress := false } req RcodeFormatError],
        logged := [], forwarded := [], attempted := [], world := w, panicked := false } := by
  unfold handleDNSRequest
  simp only [hq, List.length_nil, beq_self_eq_true, if_true]

/-- The handler on the path where the forwarder returns an error. -/
theorem handleDNSRequest_of_error (env : Env σ) (config : Config) (clientAddr : String)
    (w : σ) (req : Msg) (e : String) (hq : req.Question ≠ [])
    (herr : (QueryWithServer env config w req).err = some e) :
    (handleDNSRequest env config clientAddr w req).written =
      [SetRcode { SetReply newMsg req with Compress := false } req RcodeServerFailure] ∧
    ∃ entry, (handleDNSRequest env config clientAddr w req).logged = [entry] ∧
      entry.AnswerCount = 0 ∧ entry.ResponseCode = "SERVFAIL" ∧ entry.Answers = [] ∧
      entry.DoHServer = (QueryWithServer env config w req).server := by
  unfold handleDNSRequest
  simp only [question_length_ne req hq, herr]
  exact ⟨rfl, _, rfl, rfl, rfl, rfl, rfl⟩

/-- The handler on the path where the forwarder returns a response. -/
theorem handleDNSRequest_of_response (env : Env σ) (config : Config) (clientAddr : String)
    (w : σ) (req dohResp : Msg) (hq : req.Question ≠ [])
    (herr : (QueryWithServer env config w req).err = none)
    (hresp : (QueryWithServer env config w req).resp = some dohResp) :
    (handleDNSRequest env config clientAddr w req).written = [dohResp] ∧
    ∃ entry, (handleDNSRequest env config clientAddr w req).logged = [entry] ∧
      entry.AnswerCount = dohResp.Answer.length ∧
      entry.Answers = extractAnswers env dohResp.Answer [] ∧
      entry.ResponseCode = env.RcodeToString dohResp.Rcode ∧
      entry.DoHServer = (QueryWithServer env config w req).server := by
  unfold handleDNSRequest
  simp only [question_length_ne req hq, herr, hresp]
  exact ⟨rfl, _, rfl, rfl, rfl, rfl, rfl⟩

/-- The forwarder returns an error when every configured server fails,
whether or not the query packs. -/
theorem QueryWithServer_error_of_all_fail (env : Env σ) (config : Config) (w : σ) (req : Msg)
    (hall : ∀ packed, env.Pack req = .ok packed →
      ∃ w1, failAll env packed config.DoH.Servers w = some w1) :
    ∃ e, (QueryWithServer env config w req).err = some e := by
  unfold QueryWithServer
  cases hp : env.Pack req with
  | error e => exact ⟨_, rfl⟩
  | ok packed =>
    obtain ⟨w1, h⟩ := hall packed hp
    exact (queryLoop_all_fail env packed config.DoH.Servers none w w1 h).2.2.2.1

/-- The handler never stops on a nil dereference. -/
theorem handleDNSRequest_no_panic (env : Env σ) (config : Config) (clientAddr : String)
    (w : σ) (req : Msg) : (handleDNSRequest env config clientAddr w req).panicked = false := by
  cases hq : req.Question with
  | nil => rw [handleDNSRequest_no_question env config clientAddr w req hq]
  | cons q rest =>
    have hne : req.Question ≠ [] := by rw [hq]; exact List.cons_ne_nil _ _
    unfold handleDNSRequest
    simp only [question_length_ne req hne]
    rcases QueryWithServer_shape env config w req with ⟨h1, resp, h2⟩ | ⟨⟨e, h1⟩, _, _⟩
    · simp only [h1, h2, Bool.false_eq_true, if_false]
    · simp only [h1, Bool.false_eq_true, if_false]

/-- C1: for a message whose question section is empty, `handleDNSRequest`
writes one response, with response code FORMERR and the identifier of the
query, hands nothing to the forwarder, attempts no server and logs no
transaction. -/
theorem handleDNSRequest_empty_question (env : Env σ) (config : Config) (clientAddr : String)
    (w : σ) (req : Msg) (hq : req.Question = []) :
    (∃ resp, (handleDNSRequest env config clientAddr w req).written = [resp] ∧
      resp.Rcode = RcodeFormatError ∧ resp.Id = req.Id) ∧
    (handleDNSRequest env config clientAddr w req).forwarded = [] ∧
    (handleDNSRequest env config clientAddr w req).attempted = [] ∧
    (handleDNSRequest env config clientAddr w req).logged = [] ∧
    (handleDNSRequest env config clientAddr w req).world = w := by
  rw [handleDNSRequest_no_question env config clientAddr w req hq]
  exact ⟨⟨_, rfl, SetRcode_Rcode _ _ _, SetRcode_Id _ _ _⟩, rfl, rfl, rfl, rfl⟩

/-- C1 at a sample input: a message with identifier 9 and no question, on a
network where server `C` would answer. -/
theorem handleDNSRequest_empty_question_witness :
    (∃ resp, (handleDNSRequest (sampleEnv packId [sampleAnswer] replyOnlyC)
        (sampleConfig serversABC (pinning false [])) "192.0.2.7:5353" 0
        { newMsg with Id := 9 }).written = [resp] ∧
      resp.Rcode = RcodeFormatError ∧ resp.Id = 9) ∧
    (handleDNSRequest (sampleEnv packId [sampleAnswer] replyOnlyC)
      (sampleConfig serversABC (pinning false [])) "192.0.2.7:5353" 0
      { newMsg with Id := 9 }).forwarded = [] ∧
    (handleDNSRequest (sampleEnv packId [sampleAnswer] replyOnlyC)
      (sampleConfig serversABC (pinning false [])) "192.0.2.7:5353" 0
      { newMsg with Id := 9 }).attempted = [] ∧
    (handleDNSRequest (sampleEnv packId [sampleAnswer] replyOnlyC)
      (sampleConfig serversABC (pinning false [])) "192.0.2.7:5353" 0
      { newMsg with Id := 9 }).logged = [] ∧
    (handleDNSRequest (sampleEnv packId [sampleAnswer] replyOnlyC)
      (sampleConfig serversABC (pinning false [])) "192.0.2.7:5353" 0
      { newMsg with Id := 9 }).world = 0 :=
  handleDNSRequest_empty_question (sampleEnv packId [sampleAnswer] replyOnlyC)
    (sampleConfig serversABC (pinning false [])) "192.0.2.7:5353" 0 { newMsg with Id := 9 } rfl

/-- C4: for a query with at least one question for which every configured
server fails, `handleDNSRequest` writes one response, with response code
SERVFAIL and no answer, and logs exactly one transaction, with answer count
0 and response code `SERVFAIL`. -/
theorem handleDNSRequest_all_fail (env : Env σ) (config : Config) (clientAddr : String)
    (w : σ) (req : Msg) (hq : req.Question ≠ [])
    (hall : ∀ packed, env.Pack req = .ok packed →
      ∃ w1, failAll env packed config.DoH.Servers w = some w1) :
    (∃ resp, (handleDNSRequest env config clientAddr w req).written = [resp] ∧
      resp.Rcode = RcodeServerFailure ∧ resp.Answer = []) ∧
    (∃ entry, (handleDNSRequest env config clientAddr w req).logged = [entry] ∧
      entry.AnswerCount = 0 ∧ entry.ResponseCode = "SERVFAIL") := by
  obtain ⟨e, herr⟩ := QueryWithServer_error_of_all_fail env config w req hall
  obtain ⟨hw, entry, hl, hc, hr, _, _⟩ :=
    handleDNSRequest_of_error env config clientAddr w req e hq herr
  refine ⟨⟨_, hw, SetRcode_Rcode _ _ _, ?_⟩, ⟨entry, hl, hc, hr⟩⟩
  rw [SetRcode_Answer]
  exact SetReply_Answer newMsg req

/-- C4 at a sample input: `A`, `B` and `C` all time out. -/
theorem handleDNSRequest_all_fail_witness :
    (∃ resp, (handleDNSRequest (sampleEnv packId [sampleAnswer] replyNever)
        (sampleConfig serversABC (pinning false [])) "192.0.2.7:5353" 0
        (sampleQuery 7)).written = [resp] ∧
      resp.Rcode = RcodeServerFailure ∧ resp.Answer = []) ∧
    (∃ entry, (handleDNSRequest (sampleEnv packId [sampleAnswer] replyNever)
        (sampleConfig serversABC (pinning false [])) "192.0.2.7:5353" 0
        (sampleQuery 7)).logged = [entry] ∧
      entry.AnswerCount = 0 ∧ entry.ResponseCode = "SERVFAIL") :=
  handleDNSRequest_all_fail (sampleEnv packId [sampleAnswer] replyNever)
    (sampleConfig serversABC (pinning false [])) "192.0.2.7:5353" 0 (sampleQuery 7)
    (by decide) (fun packed _ => ⟨3, rfl⟩)

/-- C5 at the failing input: the query has identifier 1 and one question, the
upstream answers with a well-formed message whose identifier is 2, and the
response handed to the writer has identifier 2, not 1. -/
theorem handleDNSRequest_writes_upstream_id :
    (sampleQuery 1).Id = 1 ∧
    (QueryWithServer (sampleEnv packId [sampleAnswer] (replyWithId 2))
      (sampleConfig serversABC (pinning false [])) 0 (sampleQuery 1)).err = none ∧
    (handleDNSRequest (sampleEnv packId [sampleAnswer] (replyWithId 2))
      (sampleConfig serversABC (pinning false [])) "192.0.2.7:5353" 0
      (sampleQuery 1)).written.map Msg.Id = [2] := by
  decide

/-- C6: when the forwarder returns the response `dohResp` without error,
`handleDNSRequest` logs exactly one transaction; its `AnswerCount` is the
number of answer records of `dohResp`, and its `Answers` list has one entry
per answer record, in the order of the records: the entry at each position
is the one built from the record at that position, with the name, type and
TTL of that record. -/
theorem handleDNSRequest_answer_count (env : Env σ) (config : Config) (clientAddr : String)
    (w : σ) (req dohResp : Msg) (hq : req.Question ≠ [])
    (herr : (QueryWithServer env config w req).err = none)
    (hresp : (QueryWithServer env config w req).resp = some dohResp) :
    ∃ entry, (handleDNSRequest env config clientAddr w req).logged = [entry] ∧
      entry.AnswerCount = dohResp.Answer.length ∧
      entry.Answers.length = dohResp.Answer.length ∧
      entry.Answers = dohResp.Answer.map (answerEntry env) ∧
      (∀ (i : Nat) (ans : RR), dohResp.Answer[i]? = some ans →
        ∃ a : AnswerEntry, entry.Answers[i]? = some a ∧ a.Name = ans.Hdr.Name ∧
          a.Type_ = env.TypeToString ans.Hdr.Rrtype ∧ a.TTL = ans.Hdr.Ttl ∧
          a.Value = answerValue env ans) := by
  obtain ⟨_, entry, hl, hc, ha, _, _⟩ :=
    handleDNSRequest_of_response env config clientAddr w req dohResp hq herr hresp
  have hmap : entry.Answers = dohResp.Answer.map (answerEntry env) := by
    rw [ha, extractAnswers_eq, List.nil_append]
  refine ⟨entry, hl, hc, ?_, hmap, ?_⟩
  · rw [hmap, List.length_map]
  · intro i ans hi
    refine ⟨answerEntry env ans, ?_, rfl, rfl, rfl, rfl⟩
    rw [hmap, List.getElem?_map, hi]
    rfl

/-- C6 at a sample input: `A` and `B` time out, `C` answers with one `A`
record. -/
theorem handleDNSRequest_answer_count_witness :
    ∃ entry, (handleDNSRequest (sampleEnv packId [sampleAnswer] replyOnlyC)
        (sampleConfig serversABC (pinning false [])) "192.0.2.7:5353" 0
        (sampleQuery 7)).logged = [entry] ∧
      entry.AnswerCount = 1 ∧ entry.Answers.length = 1 ∧
      entry.Answers = [{ Name := "example.com.", Type_ := "A", TTL := 300,
                         Value := "192.0.2.1" }] :=
  (handleDNSRequest_answer_count (sampleEnv packId [sampleAnswer] replyOnlyC)
    (sampleConfig serversABC (pinning false [])) "192.0.2.7:5353" 0 (sampleQuery 7)
    { newMsg with Id := 7, Response := true, Answer := [sampleAnswer] }
    (by decide) rfl rfl).imp (fun _ h => ⟨h.1, h.2.1, h.2.2.1, h.2.2.2.1⟩)

end Relay

/-! ## The client policy -/

/-- C11 as stated fails: with `insecure_skip_verify` set and the TLS options
switched off (`enabled` false), the policy `GetTLSConfig` returns keeps peer
verification: its `InsecureSkipVerify` flag is false. -/
theorem GetTLSConfig_disabled_keeps_verification :
    (sampleConfig [] (insecure false ["ExampleCA"])).TLS.InsecureSkipVerify = true ∧
    (GetTLSConfig (sampleConfig [] (insecure false ["ExampleCA"]))).InsecureSkipVerify = false :=
  ⟨rfl, rfl⟩

/-- C11, amended: for every configuration in which `insecure_skip_verify` is
set, the policy `GetTLSConfig` returns has no custom verification hook and
minimum version TLS 1.2; its `InsecureSkipVerify` flag is true when the TLS
options are switched on (`enabled` true) and false when they are off. -/
theorem GetTLSConfig_insecure (config : Config)
    (hskip : config.TLS.InsecureSkipVerify = true) :
    (config.TLS.Enabled = true → (GetTLSConfig config).InsecureSkipVerify = true) ∧
    (config.TLS.Enabled = false → (GetTLSConfig config).InsecureSkipVerify = false) ∧
    (GetTLSConfig config).VerifyPeerCertificate = none ∧
    (GetTLSConfig config).MinVersion = VersionTLS12 := by
  unfold GetTLSConfig
  cases hen : config.TLS.Enabled
  · exact ⟨fun h => Bool.noConfusion h, fun _ => rfl, rfl, rfl⟩
  · rw [hskip]
    exact ⟨fun _ => rfl, fun h => Bool.noConfusion h, rfl, rfl⟩

/-- C11, amended, at a sample input: TLS options on, `insecure_skip_verify`
set, issuer pinning and certificate printing requested as well. -/
theorem GetTLSConfig_insecure_witness :
    (GetTLSConfig (sampleConfig [] (insecure true ["ExampleCA"]))).InsecureSkipVerify = true ∧
    (GetTLSConfig (sampleConfig [] (insecure true ["ExampleCA"]))).VerifyPeerCertificate = none ∧
    (GetTLSConfig (sampleConfig [] (insecure true ["ExampleCA"]))).MinVersion = VersionTLS12 :=
  ⟨(GetTLSConfig_insecure (sampleConfig [] (insecure true ["ExampleCA"])) rfl).1 rfl,
   (GetTLSConfig_insecure (sampleConfig [] (insecure true ["ExampleCA"])) rfl).2.2⟩

/-! ## One upstream exchange -/

section Exchange

variable {σ : Type}

/-- `queryServer` returns the message `resp` exactly when the request was
created, the exchange produced an HTTP response with status 200 and content
type `application/dns-message`, the body was read in full, and the body
decodes to `resp`. -/
theorem queryServer_ok_iff (env : Env σ) (w : σ) (serverURL : String) (packed : List Nat)
    (resp : Msg) :
    (queryServer env w serverURL packed).1 = .ok resp ↔
      env.NewRequest serverURL = .ok () ∧
      ∃ httpResp body, (env.Do w serverURL packed).1 = .ok httpResp ∧
        httpResp.StatusCode = StatusOK ∧
        httpResp.ContentType = "application/dns-message" ∧
        httpResp.Body = .ok body ∧ env.Unpack body = .ok resp := by
  cases hreq : env.NewRequest serverURL with
  | error err =>
    rw [queryServer_of_request_error env w serverURL packed err hreq]
    constructor
    · intro h; exact Except.noConfusion h
    · rintro ⟨h, _⟩; exact Except.noConfusion h
  | ok u =>
    cases u
    rcases hdo : env.Do w serverURL packed with ⟨res, w1⟩
    cases res with
    | error err =>
      rw [queryServer_of_send_error env w w1 serverURL packed err hreq hdo]
      constructor
      · intro h; exact Except.noConfusion h
      · rintro ⟨_, httpResp, body, h, _⟩; exact Except.noConfusion h
    | ok httpResp =>
      rw [queryServer_of_response env w w1 serverURL packed httpResp hreq hdo]
      by_cases hs : httpResp.StatusCode = StatusOK
      · by_cases hc : httpResp.ContentType = "application/dns-message"
        · rw [if_neg (not_not.2 hs), if_neg (not_not.2 hc)]
          cases hb : httpResp.Body with
          | error err =>
            constructor
            · intro h; exact Except.noConfusion h
            · rintro ⟨_, r, body, h, _, _, hbody, _⟩
              cases h
              rw [hb] at hbody
              exact Except.noConfusion hbody
          | ok body =>
            dsimp only
            cases hu : env.Unpack body with
            | error err =>
              constructor
              · intro h; exact Except.noConfusion h
              · rintro ⟨_, r, body2, h, _, _, hbody, hun⟩
                cases h
                rw [hb] at hbody
                cases hbody
                rw [hu] at hun
                exact Except.noConfusion hun
            | ok m =>
              constructor
              · intro h
                cases h
                exact ⟨rfl, httpResp, body, rfl, hs, hc, hb, hu⟩
              · rintro ⟨_, r, body2, h, _, _, hbody, hun⟩
                cases h
                rw [hb] at hbody
                cases hbody
                rw [hu] at hun
                cases hun
                rfl
        · rw [if_neg (not_not.2 hs), if_pos hc]
          constructor
          · intro h; exact Except.noConfusion h
          · rintro ⟨_, r, body, h, _, hc2, _⟩
            cases h
            exact absurd hc2 hc
      · rw [if_pos hs]
        constructor
        · intro h; exact Except.noConfusion h
        · rintro ⟨_, r, body, h, hs2, _⟩
          cases h
          exact absurd hs2 hs

/-- C12: `queryServer` returns a message only if the exchange produced an HTTP
response with status 200, content type exactly `application/dns-message`,
and a body that decodes as a DNS message; when these hold for the response
of the exchange and its body is read in full, it returns the decoded
message; a content type with a parameter or in another case is rejected; and
in every other case it returns an error. -/
theorem queryServer_success_shape (env : Env σ) (w : σ) (serverURL : String)
    (packed : List Nat) :
    (∀ resp, (queryServer env w serverURL packed).1 = .ok resp →
      ∃ httpResp body, (env.Do w serverURL packed).1 = .ok httpResp ∧
        httpResp.StatusCode = 200 ∧
        httpResp.ContentType = "application/dns-message" ∧
        httpResp.Body = .ok body ∧ env.Unpack body = .ok resp) ∧
    (∀ httpResp body resp w1, env.NewRequest serverURL = .ok () →
      env.Do w serverURL packed = (.ok httpResp, w1) →
      httpResp.StatusCode = 200 →
      httpResp.ContentType = "application/dns-message" →
      httpResp.Body = .ok body → env.Unpack body = .ok resp →
      queryServer env w serverURL packed = (.ok resp, w1)) ∧
    (∀ httpResp w1, env.Do w serverURL packed = (.ok httpResp, w1) →
      (httpResp.ContentType = "application/dns-message; charset=utf-8" ∨
        httpResp.ContentType = "Application/DNS-Message") →
      ∃ e, (queryServer env w serverURL packed).1 = .error e) ∧
    ((¬ ∃ resp httpResp body, env.NewRequest serverURL = .ok () ∧
        (env.Do w serverURL packed).1 = .ok httpResp ∧
        httpResp.StatusCode = 200 ∧
        httpResp.ContentType = "application/dns-message" ∧
        httpResp.Body = .ok body ∧ env.Unpack body = .ok resp) →
      ∃ e, (queryServer env w serverURL packed).1 = .error e) := by
  refine ⟨?_, ?_, ?_, ?_⟩
  · intro resp h
    exact ((queryServer_ok_iff env w serverURL packed resp).1 h).2
  · intro httpResp body resp w1 hreq hdo hs hc hb hu
    have hs2 : httpResp.StatusCode = StatusOK := hs
    rw [queryServer_of_response env w w1 serverURL packed httpResp hreq hdo,
      if_neg (not_not.2 hs2), if_neg (not_not.2 hc), hb]
    dsimp only
    rw [hu]
  · intro httpResp w1 hdo hct
    cases hres : (queryServer env w serverURL packed).1 with
    | error e => exact ⟨e, rfl⟩
    | ok resp =>
      obtain ⟨_, r, body, hr, _, hc, _⟩ := (queryServer_ok_iff env w serverURL packed resp).1 hres
      rw [hdo] at hr
      cases hr
      rw [hc] at hct
      rcases hct with h | h
      · exact absurd h (by decide)
      · exact absurd h (by decide)
  · intro hno
    cases hres : (queryServer env w serverURL packed).1 with
    | error e => exact ⟨e, rfl⟩
    | ok resp =>
      obtain ⟨hreq, r, body, h⟩ := (queryServer_ok_iff env w serverURL packed resp).1 hres
      exact absurd ⟨resp, r, body, hreq, h⟩ hno

/-- C12 at a sample input: the server answers 200 with content type
`application/dns-message` and a body that decodes to a message with
identifier 7. -/
theorem queryServer_success_shape_witness :
    queryServer (sampleEnv packId [sampleAnswer] (replyAlways (dohReply [7]))) 0
      "https://c.example/dns-query" [7]
      = (.ok { newMsg with Id := 7, Response := true, Answer := [sampleAnswer] }, 1) :=
  (queryServer_success_shape (sampleEnv packId [sampleAnswer] (replyAlways (dohReply [7]))) 0
    "https://c.example/dns-query" [7]).2.1 (dohReply [7]) [7]
    { newMsg with Id := 7, Response := true, Answer := [sampleAnswer] } 1 rfl rfl rfl rfl rfl rfl

end Exchange

/-! ## The empty string under containment -/

/-- Every string contains the empty string. -/
theorem Contains_empty (s : String) : Contains s "" = true := by
  unfold Contains
  cases s.toList <;> rfl

/-- With a non-empty allow-list, a certificate whose issuer common name is
the empty string is allowed. -/
theorem issuerAllowed_empty_issuer (allowed : List String) (hne : allowed ≠ []) :
    issuerAllowed "" allowed = true := by
  cases allowed with
  | nil => exact absurd rfl hne
  | cons a rest =>
    exact (issuerAllowed_iff "" (a :: rest)).2
      ⟨a, List.mem_cons_self a rest, Or.inr (Contains_empty a)⟩

/-- C13: with a non-empty allow-list, `verifyCertificateIssuer` accepts every
chain that contains a certificate whose issuer common name is the empty
string, and every non-empty chain when some allow-list entry is the empty
string, since every string contains the empty string; with issuer pinning
enabled `verifyPeerCertificate` then accepts such a chain too. -/
theorem verifyCertificateIssuer_empty_string (config : Config) (chain : List Certificate)
    (hne : config.TLS.AllowedIssuers ≠ []) :
    ((∃ cert ∈ chain, cert.IssuerCommonName = "") →
      verifyCertificateIssuer config chain = .ok ()) ∧
    ("" ∈ config.TLS.AllowedIssuers → chain ≠ [] →
      verifyCertificateIssuer config chain = .ok ()) ∧
    (∀ s : String, Contains s "" = true) ∧
    (∀ (rawCerts : List (List Nat)) (rest : List (List Certificate)),
      config.TLS.PinCertIssuer = true → chain ≠ [] →
      ((∃ cert ∈ chain, cert.IssuerCommonName = "") ∨ "" ∈ config.TLS.AllowedIssuers) →
      verifyPeerCertificate config rawCerts (chain :: rest) = .ok ()) := by
  have h1 : (∃ cert ∈ chain, cert.IssuerCommonName = "") →
      verifyCertificateIssuer config chain = .ok () := by
    rintro ⟨cert, hc, hcn⟩
    refine (verifyCertificateIssuer_ok_iff config chain).2 (Or.inr ?_)
    obtain ⟨a, ha, hm⟩ :=
      (issuerAllowed_iff "" config.TLS.AllowedIssuers).1 (issuerAllowed_empty_issuer _ hne)
    exact (chainAllowed_iff _ _).2 ⟨cert, hc, a, ha, by rw [hcn]; exact hm⟩
  have h2 : "" ∈ config.TLS.AllowedIssuers → chain ≠ [] →
      verifyCertificateIssuer config chain = .ok () := by
    intro hmem hchain
    refine (verifyCertificateIssuer_ok_iff config chain).2 (Or.inr ?_)
    cases chain with
    | nil => exact absurd rfl hchain
    | cons cert more =>
      exact (chainAllowed_iff _ _).2
        ⟨cert, List.mem_cons_self cert more, "", hmem, Or.inl (Contains_empty _)⟩
  refine ⟨h1, h2, Contains_empty, ?_⟩
  intro rawCerts rest hpin hchain hcase
  cases chain with
  | nil => exact absurd rfl hchain
  | cons cert more =>
    rw [verifyPeerCertificate_cons, if_pos hpin]
    rcases hcase with h | h
    · exact h1 h
    · exact h2 h hchain

/-- C13 at a sample input: allow-list `["ExampleCA"]`, a leaf issued by
`OtherCA` followed by a certificate with an empty issuer common name. -/
theorem verifyCertificateIssuer_empty_string_witness :
    verifyCertificateIssuer (sampleConfig [] (pinning true ["ExampleCA"]))
      [certIssuedBy "OtherCA", certIssuedBy ""] = .ok () :=
  (verifyCertificateIssuer_empty_string (sampleConfig [] (pinning true ["ExampleCA"]))
    [certIssuedBy "OtherCA", certIssuedBy ""] (by decide)).1
    ⟨certIssuedBy "", by decide, rfl⟩

end Dns2DoH
